import Mathlib

/-!
Verification of the radial hierarchical layout engine in
src/components/SunburstChart.tsx.

The component is embedded shallowly:
  a JavaScript number is either NaN or a rational (the component only adds,
  divides and multiplies finite decimal inputs, so exact rationals model the
  intended arithmetic); an optional field is an Option; cartesian points are
  kept in polar form (center, radius, angle in degrees) because the actual
  cartesian coordinates cx + r cos((a-90)pi/180), cy + r sin((a-90)pi/180)
  are transcendental and no claim inspects them -- the polar data determines
  the cartesian point, so nothing observable is lost.
-/

namespace Sunburst

/-- A JavaScript number as used by the chart: NaN or a finite value. -/
inductive JSNum : Type where
  | nan : JSNum
  | num : ℚ → JSNum
deriving DecidableEq

/- The input tree type of SunburstChart.tsx (interface SunburstData, lines
3-8): name, optional value, optional color, optional children array. The
children array is modelled by the mutual type SList. -/
mutual
inductive SunburstData : Type where
  | mk : String → Option JSNum → Option String → Option SList → SunburstData
inductive SList : Type where
  | nil : SList
  | cons : SunburstData → SList → SList
end

def SunburstData.name : SunburstData → String
  | .mk n _ _ _ => n

def SunburstData.value : SunburstData → Option JSNum
  | .mk _ v _ _ => v

def SunburstData.color : SunburstData → Option String
  | .mk _ _ c _ => c

def SunburstData.children : SunburstData → Option SList
  | .mk _ _ _ ch => ch

/-- The children list as a Lean list. -/
def SList.toList : SList → List SunburstData
  | .nil => []
  | .cons c rest => c :: rest.toList

/-- JavaScript truthiness of an optional number: undefined, NaN and 0 are
falsy, every other number is truthy. Used for the test `node.value` on
line 85. -/
def truthyNum : Option JSNum → Bool
  | some (JSNum.num q) => if q = 0 then false else true
  | _ => false

/-- The JavaScript expression `v || 0` (lines 103 and 106): a truthy number
is kept, NaN, undefined and 0 all give 0. For a finite q the result is q in
every case, because when q is falsy it equals 0. -/
def jsOrZero : Option JSNum → ℚ
  | some (JSNum.num q) => q
  | _ => 0

/-- The JavaScript expression `q || 1` on a finite number (line 103 tail and
line 124): 0 is replaced by 1, every other value is kept. -/
def jsOr1 (q : ℚ) : ℚ := if q = 0 then 1 else q

/-- The JavaScript expression `node.color || "#cccccc"` (line 96): an absent
or empty color string falls back to the default. -/
def jsOrColor : Option String → String
  | some c => if c = "" then "#cccccc" else c
  | none => "#cccccc"

/-- A cartesian point kept in polar form: center, radius and the angle in
degrees. The source (polarToCartesian, lines 35-46) maps this to
x = cx + r cos((angle - 90) pi / 180), y = cy + r sin((angle - 90) pi / 180),
an injective image of this record for r > 0, so the record carries the full
information content of the point. -/
structure Pt where
  cx : ℚ
  cy : ℚ
  r : ℚ
  angle : ℚ
deriving DecidableEq

/-- polarToCartesian (lines 35-46), with the cartesian image represented by
its polar data. -/
def polarToCartesian (centerX centerY radius angleInDegrees : ℚ) : Pt :=
  ⟨centerX, centerY, radius, angleInDegrees⟩

/-- One command of an SVG path string: M, A (with the two radii, the
x-axis rotation, the large-arc flag, the sweep flag and the end point),
L, or Z. -/
inductive PathSeg : Type where
  | move : Pt → PathSeg
  | arc : ℚ → ℚ → ℚ → ℕ → ℕ → Pt → PathSeg
  | line : Pt → PathSeg
  | close : PathSeg
deriving DecidableEq

/-- describeArc (lines 48-72): move to the point at endAngle, then one arc
command ending at the point at startAngle, with large-arc flag 1 exactly
when endAngle - startAngle > 180. -/
def describeArc (x y radius startAngle endAngle : ℚ) : List PathSeg :=
  let start := polarToCartesian x y radius endAngle
  let stop := polarToCartesian x y radius startAngle
  let largeArcFlag : ℕ := if endAngle - startAngle ≤ 180 then 0 else 1
  [PathSeg.move start, PathSeg.arc radius radius 0 largeArcFlag 0 stop]

/-- One emitted arc (interface ArcData, lines 17-21): path, fill color and
the source node. -/
structure ArcData where
  path : List PathSeg
  color : String
  data : SunburstData

/-- The reduce on line 103: `children.reduce((acc, c) => acc + (c.value || 0), 0)`,
written with the explicit accumulator of reduce. -/
def sumWeightsGo : SList → ℚ → ℚ
  | .nil, acc => acc
  | .cons c rest, acc => sumWeightsGo rest (acc + jsOrZero c.value)

/-- Total weight of a children array, initial accumulator 0 as in reduce. -/
def sumWeights (cs : SList) : ℚ := sumWeightsGo cs 0

/-- innerRadius on line 86: (level / maxLevels) * radius. -/
def innerRadiusOfLevel (level maxLevels : ℕ) (radius : ℚ) : ℚ :=
  ((level : ℚ) / (maxLevels : ℚ)) * radius

/-- outerRadius on line 87: ((level + 1) / maxLevels) * radius. -/
def outerRadiusOfLevel (level maxLevels : ℕ) (radius : ℚ) : ℚ :=
  (((level : ℚ) + 1) / (maxLevels : ℚ)) * radius

/-- The path built on lines 88-92: outer sweep from startAngle to endAngle,
a line to the inner point at startAngle, the inner sweep called with the
two angles swapped, and a close command. -/
def segPath (centerX centerY innerRadius outerRadius startAngle endAngle : ℚ) :
    List PathSeg :=
  describeArc centerX centerY outerRadius startAngle endAngle
    ++ [PathSeg.line (polarToCartesian centerX centerY innerRadius startAngle)]
    ++ describeArc centerX centerY innerRadius endAngle startAngle
    ++ [PathSeg.close]

/-- Lines 85-99 of createArcs: the arc the node itself emits. One arc when
level > 0 and node.value is truthy, none otherwise. -/
def arcFor (radius centerX centerY : ℚ) (node : SunburstData) (level : ℕ)
    (startAngle endAngle : ℚ) (maxLevels : ℕ) : List ArcData :=
  if 0 < level ∧ truthyNum node.value then
    [{ path := segPath centerX centerY
         (innerRadiusOfLevel level maxLevels radius)
         (outerRadiusOfLevel level maxLevels radius) startAngle endAngle,
       color := jsOrColor node.color,
       data := node }]
  else []

/- createArcs (lines 74-122). The closure variables radius, centerX and
centerY are explicit parameters. walkChildren is the forEach loop of lines
105-118 with its running angle cursor; the level argument it receives is
already the level of the children. -/
mutual
def createArcs (radius centerX centerY : ℚ) (node : SunburstData) (level : ℕ)
    (startAngle endAngle totalValue : ℚ) (maxLevels : ℕ) : List ArcData :=
  match node with
  | .mk nm v col ch =>
    arcFor radius centerX centerY (.mk nm v col ch) level startAngle endAngle maxLevels
      ++ match ch with
         | none => []
         | some cs =>
           walkChildren radius centerX centerY cs (level + 1) startAngle
             (jsOr1 (sumWeights cs)) (endAngle - startAngle) totalValue maxLevels
def walkChildren (radius centerX centerY : ℚ) (cs : SList) (level : ℕ)
    (currentAngle childrenTotal angleRange totalValue : ℚ) (maxLevels : ℕ) :
    List ArcData :=
  match cs with
  | .nil => []
  | .cons child rest =>
    createArcs radius centerX centerY child level currentAngle
        (currentAngle + jsOrZero child.value / childrenTotal * angleRange)
        totalValue maxLevels
      ++ walkChildren radius centerX centerY rest level
          (currentAngle + jsOrZero child.value / childrenTotal * angleRange)
          childrenTotal angleRange totalValue maxLevels
end

/-- Line 124: totalValue sums the weights of the grandchildren, with
undefined chains and a zero total replaced by 1 through the trailing
`|| 1`, and each absent grandchildren array contributing 0 through `|| 0`. -/
def totalValueOf (d : SunburstData) : ℚ :=
  match d.children with
  | none => 1
  | some cs => jsOr1 (grandSum cs)
where
  grandSum : SList → ℚ
    | .nil => 0
    | .cons c rest =>
      (match c.children with
       | none => 0
       | some gs => sumWeights gs) + grandSum rest

/-- Line 125: maxLevels is 2 when the first child has a children array
(even an empty one, since an array is truthy), else 1. -/
def maxLevelsOf (d : SunburstData) : ℕ :=
  match d.children with
  | some (.cons c _) =>
    match c.children with
    | some _ => 2
    | none => 1
  | _ => 1

/-- Lines 31-33 and 126: the chart radius is min(width, height) / 2, the
center is (width / 2, height / 2), and createArcs is started at the root
with level 0, angles [0, 360), the derived totalValue, and maxLevels + 1. -/
def allArcs (width height : ℚ) (d : SunburstData) : List ArcData :=
  createArcs (min width height / 2) (width / 2) (height / 2) d 0 0 360
    (totalValueOf d) (maxLevelsOf d + 1)

/-- The (startAngle, endAngle) pair of an emitted path: the outer sweep
moves to the point at endAngle and its arc command ends at startAngle. -/
def pathAngles : List PathSeg → Option (ℚ × ℚ)
  | [PathSeg.move p1, PathSeg.arc _ _ _ _ _ p2, _, _, _, _] => some (p2.angle, p1.angle)
  | _ => none

/-- The large-arc flag of the outer sweep of an emitted path. -/
def pathOuterFlag : List PathSeg → Option ℕ
  | [_, PathSeg.arc _ _ _ f _ _, _, _, _, _] => some f
  | _ => none

/-- The large-arc flag of the inner sweep of an emitted path. -/
def pathInnerFlag : List PathSeg → Option ℕ
  | [_, _, _, _, PathSeg.arc _ _ _ f _ _, _] => some f
  | _ => none

/-- The inner radius of an emitted path, read off the line command. -/
def pathInnerRadius : List PathSeg → Option ℚ
  | [_, _, PathSeg.line p, _, _, _] => some p.r
  | _ => none

/-- The outer radius of an emitted path, read off the initial move. -/
def pathOuterRadius : List PathSeg → Option ℚ
  | [PathSeg.move p, _, _, _, _, _] => some p.r
  | _ => none

/-- The angular sub-ranges the forEach loop of lines 105-118 hands to the
children, as (startAngle, endAngle) pairs: the cursor walk with ranges
proportional to weight / childrenTotal. -/
def childSpansGo (childrenTotal angleRange : ℚ) : SList → ℚ → List (ℚ × ℚ)
  | .nil, _ => []
  | .cons c rest, currentAngle =>
    (currentAngle, currentAngle + jsOrZero c.value / childrenTotal * angleRange) ::
      childSpansGo childrenTotal angleRange rest
        (currentAngle + jsOrZero c.value / childrenTotal * angleRange)

/-- The sub-ranges of the children of a container spanning [s, e), with the
zero-total divisor substitution of line 103. -/
def childSpans (cs : SList) (s e : ℚ) : List (ℚ × ℚ) :=
  childSpansGo (jsOr1 (sumWeights cs)) (e - s) cs s

/- Depth of a tree: 0 for a node without child nodes, one more than the
deepest child otherwise. The root is at level 0, so the deepest level
present in a tree equals its depth. -/
mutual
def sdepth : SunburstData → ℕ
  | .mk _ _ _ ch =>
    match ch with
    | none => 0
    | some cs => sdepthList cs
def sdepthList : SList → ℕ
  | .nil => 0
  | .cons c rest => max (1 + sdepth c) (sdepthList rest)
end

/- Every value in the tree has a non-negative weight under `|| 0`. -/
mutual
def nonnegWeights : SunburstData → Bool
  | .mk _ v _ ch =>
    decide (0 ≤ jsOrZero v) &&
      (match ch with
       | none => true
       | some cs => nonnegWeightsList cs)
def nonnegWeightsList : SList → Bool
  | .nil => true
  | .cons c rest => nonnegWeights c && nonnegWeightsList rest
end

/- Depth-first preorder listing of the nodes of a tree with their levels,
the root first, then the subtrees of the children in input order. -/
mutual
def preorderNodes : SunburstData → ℕ → List (SunburstData × ℕ)
  | .mk nm v col ch, level =>
    (SunburstData.mk nm v col ch, level) ::
      (match ch with
       | none => []
       | some cs => preorderNodesList cs (level + 1))
def preorderNodesList : SList → ℕ → List (SunburstData × ℕ)
  | .nil, _ => []
  | .cons c rest, level => preorderNodes c level ++ preorderNodesList rest level
end

/-- Decimal-free rendering of a rational, standing in for the JavaScript
number-to-string conversion inside the template literal of line 141. -/
def ratStr (q : ℚ) : String :=
  if q.den = 1 then toString q.num else toString q.num ++ "/" ++ toString q.den

/-- The JavaScript expression `value || ""` inside the hover label of line
141: undefined, NaN and 0 give the empty string. -/
def jsNumDisplay : Option JSNum → String
  | some (JSNum.num q) => if q = 0 then "" else ratStr q
  | _ => ""

/-- The hover label of line 141: name, colon, displayed value. -/
def hoverLabel (node : SunburstData) : String :=
  node.name ++ ": " ++ jsNumDisplay node.value

/-- The onMouseEnter handler of line 141: the hover state becomes the label
of the entered node, whatever it was before. -/
def hoverEnter (node : SunburstData) (_hoveredSegment : Option String) : Option String :=
  some (hoverLabel node)

/-- The onMouseLeave handler of line 142: the hover state is cleared. -/
def hoverLeave (_hoveredSegment : Option String) : Option String := none

/-- Line 128: `hoveredSegment || data.name`, with JavaScript falsiness of
null and of the empty string. -/
def centerText (hoveredSegment : Option String) (data : SunburstData) : String :=
  match hoveredSegment with
  | some s => if s = "" then data.name else s
  | none => data.name

/-! Concrete input trees used by the scenario claims. -/

/-- The High leaf of the concrete scenario: value 1, color #e11d48. -/
def highNode : SunburstData :=
  .mk "High" (some (.num 1)) (some "#e11d48") none

/-- The Medium leaf of the concrete scenario: value 2, color #f59e0b. -/
def mediumNode : SunburstData :=
  .mk "Medium" (some (.num 2)) (some "#f59e0b") none

/-- The two-leaf scenario tree of the specification. -/
def threeIssuesTree : SunburstData :=
  .mk "3 Issues" none none (some (.cons highNode (.cons mediumNode .nil)))

/-- The children array of the scenario tree. -/
def threeIssuesChildren : SList := .cons highNode (.cons mediumNode .nil)

/-- A root with one child of value -1. -/
def negValueTree : SunburstData :=
  .mk "Neg" none none (some (.cons (.mk "N" (some (.num (-1))) none none) .nil))

/-- A root with one child of value 1, which receives the full circle. -/
def fullCircleTree : SunburstData :=
  .mk "Full" none none (some (.cons (.mk "A" (some (.num 1)) none none) .nil))

/-- A root whose first child is a leaf while the second child has a child:
depth 2, but the heuristic depth computation of line 125 sees only the
first child and reports 1. -/
def deepTree : SunburstData :=
  .mk "Deep" none none
    (some (.cons (.mk "A" (some (.num 1)) none none)
      (.cons (.mk "B" (some (.num 1)) none
        (some (.cons (.mk "C" (some (.num 1)) none none) .nil))) .nil)))

/-- Two children of weights 1 and -1: total weight 0. -/
def zeroSumChildren : SList :=
  .cons (.mk "P" (some (.num 1)) none none)
    (.cons (.mk "M" (some (.num (-1))) none none) .nil)

/-- A root whose children weights sum to 0 without all being 0. -/
def zeroSumTree : SunburstData :=
  .mk "Z" none none (some zeroSumChildren)

/-- A leaf without a value. -/
def noValueLeaf : SunburstData := .mk "B" none none none

/-- A root with a single valueless child that itself has one child of
value 1. -/
def noValueParentTree : SunburstData :=
  .mk "P" none none
    (some (.cons (.mk "B" none none
      (some (.cons (.mk "C" (some (.num 1)) none none) .nil))) .nil))

/-- A single zero-valued child. -/
def zeroChildOnly : SList := .cons (.mk "O" (some (.num 0)) none none) .nil

/-! Helper lemmas. -/

theorem sumWeightsGo_eq : ∀ (cs : SList) (acc : ℚ), sumWeightsGo cs acc = acc + sumWeights cs
  | .nil, acc => by simp [sumWeightsGo, sumWeights]
  | .cons c rest, acc => by
    rw [sumWeights, sumWeightsGo, sumWeightsGo, sumWeightsGo_eq rest,
      sumWeightsGo_eq rest (0 + jsOrZero c.value)]
    ring

theorem sumWeights_cons (c : SunburstData) (rest : SList) :
    sumWeights (.cons c rest) = jsOrZero c.value + sumWeights rest := by
  rw [sumWeights, sumWeightsGo, sumWeightsGo_eq rest]
  ring

theorem createArcs_mk (radius cx cy : ℚ) (nm : String) (v : Option JSNum)
    (col : Option String) (ch : Option SList) (level : ℕ) (s e tv : ℚ) (ml : ℕ) :
    createArcs radius cx cy (.mk nm v col ch) level s e tv ml
      = arcFor radius cx cy (.mk nm v col ch) level s e ml
          ++ (match ch with
              | none => []
              | some cs =>
                walkChildren radius cx cy cs (level + 1) s
                  (jsOr1 (sumWeights cs)) (e - s) tv ml) := by
  simp only [createArcs.eq_def]

theorem walkChildren_nil (radius cx cy : ℚ) (level : ℕ) (cur t r tv : ℚ) (ml : ℕ) :
    walkChildren radius cx cy .nil level cur t r tv ml = [] := by
  rw [walkChildren]

theorem walkChildren_cons (radius cx cy : ℚ) (c : SunburstData) (rest : SList)
    (level : ℕ) (cur t r tv : ℚ) (ml : ℕ) :
    walkChildren radius cx cy (.cons c rest) level cur t r tv ml
      = createArcs radius cx cy c level cur (cur + jsOrZero c.value / t * r) tv ml
          ++ walkChildren radius cx cy rest level
              (cur + jsOrZero c.value / t * r) t r tv ml := by
  rw [walkChildren]

theorem childSpansGo_length (t r : ℚ) :
    ∀ (cs : SList) (cur : ℚ), (childSpansGo t r cs cur).length = cs.toList.length
  | .nil, _ => by simp [childSpansGo, SList.toList]
  | .cons c rest, cur => by
    simp [childSpansGo, SList.toList, childSpansGo_length t r rest]

theorem childSpansGo_width (t r : ℚ) :
    ∀ (cs : SList) (cur : ℚ),
      ∀ p ∈ (childSpansGo t r cs cur).zip cs.toList,
        p.1.2 - p.1.1 = jsOrZero p.2.value / t * r
  | .nil, _ => by simp [childSpansGo, SList.toList]
  | .cons c rest, cur => by
    intro p hp
    rw [childSpansGo, SList.toList] at hp
    rcases List.mem_cons.mp hp with h | h
    · subst h; simp
    · exact childSpansGo_width t r rest _ p h

theorem childSpansGo_chain (t r : ℚ) :
    ∀ (cs : SList) (cur : ℚ),
      List.Chain' (fun a b : ℚ × ℚ => a.2 = b.1) (childSpansGo t r cs cur)
  | .nil, _ => by simp [childSpansGo]
  | .cons c rest, cur => by
    rw [childSpansGo]
    match hr : rest with
    | .nil => simp [childSpansGo]
    | .cons c2 r2 =>
      rw [childSpansGo]
      exact List.Chain'.cons rfl (by
        have := childSpansGo_chain t r (SList.cons c2 r2)
          (cur + jsOrZero c.value / t * r)
        rwa [childSpansGo] at this)

theorem childSpansGo_sum (t r : ℚ) :
    ∀ (cs : SList) (cur : ℚ),
      ((childSpansGo t r cs cur).map (fun p => p.2 - p.1)).sum
        = sumWeights cs / t * r
  | .nil, _ => by simp [childSpansGo, sumWeights, sumWeightsGo]
  | .cons c rest, cur => by
    rw [childSpansGo, List.map_cons, List.sum_cons, childSpansGo_sum t r rest,
      sumWeights_cons, add_div, add_mul]
    ring

theorem walkChildren_eq_spans (radius cx cy : ℚ) (level : ℕ) (t r tv : ℚ) (ml : ℕ) :
    ∀ (cs : SList) (cur : ℚ),
      walkChildren radius cx cy cs level cur t r tv ml
        = (List.zipWith
            (fun (sp : ℚ × ℚ) c => createArcs radius cx cy c level sp.1 sp.2 tv ml)
            (childSpansGo t r cs cur) cs.toList).flatten
  | .nil, _ => by simp [walkChildren_nil, childSpansGo, SList.toList]
  | .cons c rest, cur => by
    rw [walkChildren_cons, childSpansGo, SList.toList, List.zipWith_cons_cons,
      List.flatten_cons, walkChildren_eq_spans radius cx cy level t r tv ml rest]

theorem childSpansGo_head (t r : ℚ) :
    ∀ (cs : SList) (cur : ℚ), ∀ x ∈ (childSpansGo t r cs cur).head?, x.1 = cur
  | .nil, cur => by simp [childSpansGo]
  | .cons c rest, cur => by simp [childSpansGo]

theorem childSpansGo_zero_range (t : ℚ) :
    ∀ (cs : SList) (cur : ℚ), ∀ p ∈ childSpansGo t 0 cs cur, p.2 = p.1
  | .nil, _ => by simp [childSpansGo]
  | .cons c rest, cur => by
    intro p hp
    rw [childSpansGo] at hp
    rcases List.mem_cons.mp hp with h | h
    · subst h; simp
    · exact childSpansGo_zero_range t rest _ p h

theorem pathAngles_segPath (cx cy iR oR s e : ℚ) :
    pathAngles (segPath cx cy iR oR s e) = some (s, e) := by
  simp [pathAngles, segPath, describeArc, polarToCartesian]

theorem pathInnerRadius_segPath (cx cy iR oR s e : ℚ) :
    pathInnerRadius (segPath cx cy iR oR s e) = some iR := by
  simp [pathInnerRadius, segPath, describeArc, polarToCartesian]

theorem pathOuterRadius_segPath (cx cy iR oR s e : ℚ) :
    pathOuterRadius (segPath cx cy iR oR s e) = some oR := by
  simp [pathOuterRadius, segPath, describeArc, polarToCartesian]

theorem pathOuterFlag_segPath (cx cy iR oR s e : ℚ) :
    pathOuterFlag (segPath cx cy iR oR s e)
      = some (if e - s ≤ 180 then 0 else 1) := by
  simp [pathOuterFlag, segPath, describeArc, polarToCartesian]

theorem pathInnerFlag_segPath (cx cy iR oR s e : ℚ) :
    pathInnerFlag (segPath cx cy iR oR s e)
      = some (if s - e ≤ 180 then 0 else 1) := by
  simp [pathInnerFlag, segPath, describeArc, polarToCartesian]

/- Every arc the layout emits carries the radius band of one definite level
L, with 1 <= L, L at least the level of the call and at most that level
plus the depth of the subtree. -/
mutual
theorem arcsRadii_node (radius cx cy : ℚ) :
    ∀ (node : SunburstData) (level : ℕ) (s e tv : ℚ) (ml : ℕ),
      ∀ a ∈ createArcs radius cx cy node level s e tv ml,
        ∃ L : ℕ, level ≤ L ∧ L ≤ level + sdepth node ∧ 1 ≤ L
          ∧ pathInnerRadius a.path = some (innerRadiusOfLevel L ml radius)
          ∧ pathOuterRadius a.path = some (outerRadiusOfLevel L ml radius)
  | .mk nm v col none, level, s, e, tv, ml => by
    intro a ha
    rw [createArcs_mk] at ha
    rcases List.mem_append.mp ha with h | h
    · rw [arcFor] at h
      split at h
      case isTrue hc =>
        rcases List.mem_singleton.mp h with rfl
        exact ⟨level, le_refl _, Nat.le_add_right _ _, hc.1,
          pathInnerRadius_segPath .., pathOuterRadius_segPath ..⟩
      case isFalse => exact absurd h (List.not_mem_nil a)
    · exact absurd h (List.not_mem_nil a)
  | .mk nm v col (some cs), level, s, e, tv, ml => by
    intro a ha
    rw [createArcs_mk] at ha
    rcases List.mem_append.mp ha with h | h
    · rw [arcFor] at h
      split at h
      case isTrue hc =>
        rcases List.mem_singleton.mp h with rfl
        exact ⟨level, le_refl _, Nat.le_add_right _ _, hc.1,
          pathInnerRadius_segPath .., pathOuterRadius_segPath ..⟩
      case isFalse => exact absurd h (List.not_mem_nil a)
    · obtain ⟨L, h1, h2, h3, h4, h5⟩ :=
        arcsRadii_list radius cx cy cs (level + 1) s
          (jsOr1 (sumWeights cs)) (e - s) tv ml a h
      refine ⟨L, by omega, ?_, h3, h4, h5⟩
      have : sdepth (.mk nm v col (some cs)) = sdepthList cs := by rw [sdepth]
      omega
theorem arcsRadii_list (radius cx cy : ℚ) :
    ∀ (cs : SList) (level : ℕ) (cur t r tv : ℚ) (ml : ℕ),
      ∀ a ∈ walkChildren radius cx cy cs level cur t r tv ml,
        ∃ L : ℕ, level ≤ L ∧ L + 1 ≤ level + sdepthList cs ∧ 1 ≤ L
          ∧ pathInnerRadius a.path = some (innerRadiusOfLevel L ml radius)
          ∧ pathOuterRadius a.path = some (outerRadiusOfLevel L ml radius)
  | .nil, level, cur, t, r, tv, ml => by
    intro a ha
    rw [walkChildren_nil] at ha
    exact absurd ha (List.not_mem_nil a)
  | .cons c rest, level, cur, t, r, tv, ml => by
    intro a ha
    rw [walkChildren_cons] at ha
    have hmax1 : 1 + sdepth c ≤ sdepthList (.cons c rest) := by
      rw [sdepthList]; exact Nat.le_max_left _ _
    have hmax2 : sdepthList rest ≤ sdepthList (.cons c rest) := by
      rw [sdepthList]; exact Nat.le_max_right _ _
    rcases List.mem_append.mp ha with h | h
    · obtain ⟨L, h1, h2, h3, h4, h5⟩ :=
        arcsRadii_node radius cx cy c level cur
          (cur + jsOrZero c.value / t * r) tv ml a h
      exact ⟨L, h1, by omega, h3, h4, h5⟩
    · obtain ⟨L, h1, h2, h3, h4, h5⟩ :=
        arcsRadii_list radius cx cy rest level
          (cur + jsOrZero c.value / t * r) t r tv ml a h
      exact ⟨L, h1, by omega, h3, h4, h5⟩
end

theorem nonnegWeights_value (c : SunburstData) :
    nonnegWeights c = true → 0 ≤ jsOrZero c.value := by
  match c with
  | .mk nm v col ch =>
    rw [nonnegWeights.eq_def, Bool.and_eq_true, decide_eq_true_eq]
    intro h
    exact h.1

theorem nonnegWeights_children (nm : String) (v : Option JSNum)
    (col : Option String) (cs : SList) :
    nonnegWeights (.mk nm v col (some cs)) = true → nonnegWeightsList cs = true := by
  rw [nonnegWeights.eq_def, Bool.and_eq_true]
  intro h
  exact h.2

theorem nonnegWeightsList_cons (c : SunburstData) (rest : SList) :
    nonnegWeightsList (.cons c rest) = true
      → nonnegWeights c = true ∧ nonnegWeightsList rest = true := by
  rw [nonnegWeightsList.eq_def, Bool.and_eq_true]
  exact id

theorem sumWeights_nonneg :
    ∀ cs : SList, nonnegWeightsList cs = true → 0 ≤ sumWeights cs
  | .nil, _ => by rw [sumWeights, sumWeightsGo]
  | .cons c rest, h => by
    obtain ⟨h1, h2⟩ := nonnegWeightsList_cons c rest h
    rw [sumWeights_cons]
    have := nonnegWeights_value c h1
    have := sumWeights_nonneg rest h2
    linarith

theorem jsOr1_pos (q : ℚ) (h : 0 ≤ q) : 0 < jsOr1 q := by
  rw [jsOr1]
  split
  · norm_num
  · rcases lt_or_eq_of_le h with h2 | h2
    · exact h2
    · exact absurd h2.symm (by assumption)

/- Under non-negative weights and an ordered angle pair, every emitted arc
has an ordered angle pair, outer large-arc flag 1 exactly when its span
exceeds 180 degrees, and inner large-arc flag always 0 (the inner sweep is
called with its angles swapped, so its computed difference is non-positive). -/
mutual
theorem arcsFlags_node (radius cx cy tv : ℚ) (ml : ℕ) :
    ∀ (node : SunburstData) (level : ℕ) (s e : ℚ), s ≤ e →
      nonnegWeights node = true →
      ∀ a ∈ createArcs radius cx cy node level s e tv ml,
        ∃ s2 e2 : ℚ, pathAngles a.path = some (s2, e2) ∧ s2 ≤ e2
          ∧ pathOuterFlag a.path = some (if 180 < e2 - s2 then 1 else 0)
          ∧ pathInnerFlag a.path = some 0
  | .mk nm v col none, level, s, e, hse, hnn => by
    intro a ha
    rw [createArcs_mk] at ha
    rcases List.mem_append.mp ha with h | h
    · rw [arcFor] at h
      split at h
      case isTrue hc =>
        rcases List.mem_singleton.mp h with rfl
        refine ⟨s, e, pathAngles_segPath .., hse, ?_, ?_⟩
        · rw [pathOuterFlag_segPath]
          rcases le_or_lt (e - s) 180 with h2 | h2
          · rw [if_pos h2, if_neg (not_lt.mpr h2)]
          · rw [if_neg (not_le.mpr h2), if_pos h2]
        · rw [pathInnerFlag_segPath, if_pos (by linarith)]
      case isFalse => exact absurd h (List.not_mem_nil a)
    · exact absurd h (List.not_mem_nil a)
  | .mk nm v col (some cs), level, s, e, hse, hnn => by
    intro a ha
    rw [createArcs_mk] at ha
    rcases List.mem_append.mp ha with h | h
    · rw [arcFor] at h
      split at h
      case isTrue hc =>
        rcases List.mem_singleton.mp h with rfl
        refine ⟨s, e, pathAngles_segPath .., hse, ?_, ?_⟩
        · rw [pathOuterFlag_segPath]
          rcases le_or_lt (e - s) 180 with h2 | h2
          · rw [if_pos h2, if_neg (not_lt.mpr h2)]
          · rw [if_neg (not_le.mpr h2), if_pos h2]
        · rw [pathInnerFlag_segPath, if_pos (by linarith)]
      case isFalse => exact absurd h (List.not_mem_nil a)
    · have hcs := nonnegWeights_children nm v col cs hnn
      exact arcsFlags_list radius cx cy tv ml cs (level + 1) s
        (jsOr1 (sumWeights cs)) (e - s)
        (jsOr1_pos _ (sumWeights_nonneg cs hcs)) (by linarith) hcs a h
theorem arcsFlags_list (radius cx cy tv : ℚ) (ml : ℕ) :
    ∀ (cs : SList) (level : ℕ) (cur t r : ℚ), 0 < t → 0 ≤ r →
      nonnegWeightsList cs = true →
      ∀ a ∈ walkChildren radius cx cy cs level cur t r tv ml,
        ∃ s2 e2 : ℚ, pathAngles a.path = some (s2, e2) ∧ s2 ≤ e2
          ∧ pathOuterFlag a.path = some (if 180 < e2 - s2 then 1 else 0)
          ∧ pathInnerFlag a.path = some 0
  | .nil, level, cur, t, r, _, _, _ => by
    intro a ha
    rw [walkChildren_nil] at ha
    exact absurd ha (List.not_mem_nil a)
  | .cons c rest, level, cur, t, r, ht, hr, hnn => by
    intro a ha
    obtain ⟨h1, h2⟩ := nonnegWeightsList_cons c rest hnn
    rw [walkChildren_cons] at ha
    have hw : 0 ≤ jsOrZero c.value / t * r :=
      mul_nonneg (div_nonneg (nonnegWeights_value c h1) (le_of_lt ht)) hr
    rcases List.mem_append.mp ha with h | h
    · exact arcsFlags_node radius cx cy tv ml c level cur
        (cur + jsOrZero c.value / t * r) (by linarith) h1 a h
    · exact arcsFlags_list radius cx cy tv ml rest level
        (cur + jsOrZero c.value / t * r) t r ht hr h2 a h
end

theorem childSpansGo_allzero (t r : ℚ) :
    ∀ (cs : SList) (cur : ℚ), nonnegWeightsList cs = true → sumWeights cs = 0 →
      ∀ p ∈ childSpansGo t r cs cur, p.2 = p.1
  | .nil, _, _, _ => by simp [childSpansGo]
  | .cons c rest, cur, hnn, hsum => by
    obtain ⟨h1, h2⟩ := nonnegWeightsList_cons c rest hnn
    have hw : 0 ≤ jsOrZero c.value := nonnegWeights_value c h1
    have hrest : 0 ≤ sumWeights rest := sumWeights_nonneg rest h2
    rw [sumWeights_cons] at hsum
    have hcz : jsOrZero c.value = 0 := by linarith
    have hrz : sumWeights rest = 0 := by linarith
    intro p hp
    rw [childSpansGo] at hp
    rcases List.mem_cons.mp hp with h | h
    · subst h
      simp [hcz]
    · exact childSpansGo_allzero t r rest _ h2 hrz p h

theorem arcFor_map_data (radius cx cy : ℚ) (node : SunburstData) (level : ℕ)
    (s e : ℚ) (ml : ℕ) :
    (arcFor radius cx cy node level s e ml).map ArcData.data
      = if decide (0 < level) && truthyNum node.value then [node] else [] := by
  rw [arcFor]
  split
  case isTrue h =>
    rw [if_pos]
    · simp
    · rw [Bool.and_eq_true, decide_eq_true_eq]
      exact ⟨h.1, h.2⟩
  case isFalse h =>
    rw [if_neg]
    · simp
    · rw [Bool.and_eq_true, decide_eq_true_eq]
      exact h

/- The node references of the emitted arcs, in emission order, are exactly
the preorder listing of the tree filtered to the nodes that satisfy the
emission test: positive level and truthy value. -/
mutual
theorem arcsData_node (radius cx cy tv : ℚ) (ml : ℕ) :
    ∀ (node : SunburstData) (level : ℕ) (s e : ℚ),
      (createArcs radius cx cy node level s e tv ml).map ArcData.data
        = ((preorderNodes node level).filter
            (fun p => decide (0 < p.2) && truthyNum p.1.value)).map Prod.fst
  | .mk nm v col none, level, s, e => by
    rw [createArcs_mk, List.map_append, arcFor_map_data, preorderNodes]
    simp only [List.filter_cons, List.map_nil, List.append_nil, List.filter_nil]
    split <;> simp_all
  | .mk nm v col (some cs), level, s, e => by
    rw [createArcs_mk, List.map_append, arcFor_map_data, preorderNodes]
    rw [arcsData_list radius cx cy tv ml cs (level + 1) s
      (jsOr1 (sumWeights cs)) (e - s)]
    simp only [List.filter_cons]
    split <;> simp_all
theorem arcsData_list (radius cx cy tv : ℚ) (ml : ℕ) :
    ∀ (cs : SList) (level : ℕ) (cur t r : ℚ),
      (walkChildren radius cx cy cs level cur t r tv ml).map ArcData.data
        = ((preorderNodesList cs level).filter
            (fun p => decide (0 < p.2) && truthyNum p.1.value)).map Prod.fst
  | .nil, level, cur, t, r => by
    rw [walkChildren_nil, preorderNodesList]
    simp
  | .cons c rest, level, cur, t, r => by
    rw [walkChildren_cons, preorderNodesList, List.map_append, List.filter_append,
      List.map_append, arcsData_node radius cx cy tv ml c level cur
        (cur + jsOrZero c.value / t * r),
      arcsData_list radius cx cy tv ml rest level
        (cur + jsOrZero c.value / t * r) t r]
end

/-! Claim theorems. -/

/-- Claim C9: for every hover state and every node, onPointerEnter of the
node followed by onPointerLeave leaves the displayed center label equal to
the root name; the pre-hover non-hovering display is also the root name. -/
theorem c9_hover_roundtrip (st : Option String) (node root : SunburstData) :
    centerText (hoverLeave (hoverEnter node st)) root = root.name
      ∧ centerText none root = root.name :=
  ⟨rfl, rfl⟩

/-- Claim C10: the arc list is in depth-first preorder: the node references
of the emitted arcs equal the preorder listing of the tree filtered by the
emission test (positive level and truthy value), so a node precedes its
descendants and sibling subtrees form contiguous blocks in input order. -/
theorem c10_preorder_emission (radius cx cy tv : ℚ) (ml : ℕ) (node : SunburstData)
    (level : ℕ) (s e : ℚ) :
    (createArcs radius cx cy node level s e tv ml).map ArcData.data
      = ((preorderNodes node level).filter
          (fun p => decide (0 < p.2) && truthyNum p.1.value)).map Prod.fst :=
  arcsData_node radius cx cy tv ml node level s e

/-- Claim C8: for maxLevels at least 1 and positive chart radius, the band
of every level is non-degenerate and bands of consecutive levels share a
boundary, and every emitted arc carries the band of some level, hence has
innerRadius strictly below outerRadius. -/
theorem c8_band_monotonicity (radius cx cy s e tv : ℚ) (node : SunburstData)
    (lvl ml : ℕ) (h1 : 1 ≤ ml) (h2 : 0 < radius) :
    (∀ L : ℕ, innerRadiusOfLevel L ml radius < outerRadiusOfLevel L ml radius
        ∧ outerRadiusOfLevel L ml radius = innerRadiusOfLevel (L + 1) ml radius)
    ∧ (∀ a ∈ createArcs radius cx cy node lvl s e tv ml,
        ∃ L : ℕ, pathInnerRadius a.path = some (innerRadiusOfLevel L ml radius)
          ∧ pathOuterRadius a.path = some (outerRadiusOfLevel L ml radius)
          ∧ innerRadiusOfLevel L ml radius < outerRadiusOfLevel L ml radius) := by
  have hml : (0 : ℚ) < (ml : ℚ) := by
    have : 0 < ml := h1
    exact_mod_cast this
  have key : ∀ L : ℕ, innerRadiusOfLevel L ml radius < outerRadiusOfLevel L ml radius := by
    intro L
    rw [innerRadiusOfLevel, outerRadiusOfLevel]
    apply mul_lt_mul_of_pos_right _ h2
    exact (div_lt_div_iff_of_pos_right hml).mpr (by linarith)
  have key2 : ∀ L : ℕ,
      outerRadiusOfLevel L ml radius = innerRadiusOfLevel (L + 1) ml radius := by
    intro L
    rw [innerRadiusOfLevel, outerRadiusOfLevel]
    push_cast
    ring
  refine ⟨fun L => ⟨key L, key2 L⟩, ?_⟩
  intro a ha
  obtain ⟨L, _, _, _, h4, h5⟩ := arcsRadii_node radius cx cy node lvl s e tv ml a ha
  exact ⟨L, h4, h5, key L⟩

/-- Witness for C8 at the scenario tree with radius 40 and maxLevels 2. -/
theorem c8_band_monotonicity_witness :
    1 ≤ 2 ∧ (0 : ℚ) < 40
    ∧ ((∀ L : ℕ, innerRadiusOfLevel L 2 40 < outerRadiusOfLevel L 2 40
          ∧ outerRadiusOfLevel L 2 40 = innerRadiusOfLevel (L + 1) 2 40)
        ∧ (∀ a ∈ createArcs 40 40 40 threeIssuesTree 0 0 360 1 2,
            ∃ L : ℕ, pathInnerRadius a.path = some (innerRadiusOfLevel L 2 40)
              ∧ pathOuterRadius a.path = some (outerRadiusOfLevel L 2 40)
              ∧ innerRadiusOfLevel L 2 40 < outerRadiusOfLevel L 2 40)) :=
  ⟨by norm_num, by norm_num,
    c8_band_monotonicity 40 40 40 0 360 1 threeIssuesTree 0 2 (by norm_num) (by norm_num)⟩

/-- Claim C4: for a container with children of non-zero total weight and
span from s to e, the layout hands each child in input order the sub-range
recorded in childSpans; each recorded width is weight over total times the
span, the ranges are contiguous starting at s, and the widths sum to the
full span. -/
theorem c4_angle_conservation (radius cx cy : ℚ) (nm : String) (v : Option JSNum)
    (col : Option String) (cs : SList) (level : ℕ) (s e tv : ℚ) (ml : ℕ)
    (h : sumWeights cs ≠ 0) :
    createArcs radius cx cy (.mk nm v col (some cs)) level s e tv ml
      = arcFor radius cx cy (.mk nm v col (some cs)) level s e ml
          ++ (List.zipWith
              (fun (sp : ℚ × ℚ) c => createArcs radius cx cy c (level + 1) sp.1 sp.2 tv ml)
              (childSpans cs s e) cs.toList).flatten
    ∧ (childSpans cs s e).length = cs.toList.length
    ∧ (∀ p ∈ (childSpans cs s e).zip cs.toList,
        p.1.2 - p.1.1 = jsOrZero p.2.value / sumWeights cs * (e - s))
    ∧ List.Chain' (fun a b : ℚ × ℚ => a.2 = b.1) (childSpans cs s e)
    ∧ childSpans cs s e ≠ []
    ∧ (∀ x ∈ (childSpans cs s e).head?, x.1 = s)
    ∧ ((childSpans cs s e).map (fun p => p.2 - p.1)).sum = e - s := by
  have hj : jsOr1 (sumWeights cs) = sumWeights cs := if_neg h
  refine ⟨?_, ?_, ?_, ?_, ?_, ?_, ?_⟩
  · simp only [createArcs_mk]
    rw [walkChildren_eq_spans, childSpans]
  · rw [childSpans]
    exact childSpansGo_length _ _ cs s
  · intro p hp
    rw [childSpans] at hp
    rw [← hj]
    exact childSpansGo_width _ _ cs s p hp
  · rw [childSpans]
    exact childSpansGo_chain _ _ cs s
  · cases cs with
    | nil => exact absurd (by rw [sumWeights, sumWeightsGo]) h
    | cons c rest =>
      rw [childSpans, childSpansGo]
      exact List.cons_ne_nil _ _
  · intro x hx
    rw [childSpans] at hx
    exact childSpansGo_head _ _ cs s x hx
  · rw [childSpans, childSpansGo_sum, hj, div_self h, one_mul]

/-- Witness for C4 at the scenario children with span from 0 to 360: the
total weight is non-zero and the widths of the two sub-ranges sum to the
full span. -/
theorem c4_angle_conservation_witness :
    sumWeights threeIssuesChildren ≠ 0
    ∧ ((childSpans threeIssuesChildren 0 360).map (fun p => p.2 - p.1)).sum
        = 360 - 0 := by
  have h : sumWeights threeIssuesChildren ≠ 0 := by
    norm_num [threeIssuesChildren, sumWeights, sumWeightsGo, jsOrZero,
      SunburstData.value, highNode, mediumNode]
  exact ⟨h, (c4_angle_conservation 40 40 40 "3 Issues" none none
    threeIssuesChildren 0 0 360 1 2 h).2.2.2.2.2.2⟩

/-- Claim C1 counterexample: in the concrete scenario both arcs carry inner
radius 20, not 0 as the claimed band from 0 to 40 requires. -/
theorem c1_counterexample :
    (allArcs 80 80 threeIssuesTree).map (fun a => pathInnerRadius a.path)
      = [some 20, some 20]
    ∧ some (20 : ℚ) ≠ some (0 : ℚ) := by
  constructor
  · norm_num [allArcs, createArcs, walkChildren, arcFor, totalValueOf, maxLevelsOf,
      totalValueOf.grandSum, sumWeights, sumWeightsGo, jsOr1, jsOrZero, truthyNum,
      threeIssuesTree, highNode, mediumNode, SunburstData.value, SunburstData.color,
      SunburstData.children, segPath, describeArc, polarToCartesian, pathInnerRadius,
      innerRadiusOfLevel, outerRadiusOfLevel, jsOrColor]
  · norm_num

/-- Claim C1 amended: the scenario tree produces exactly the High arc over
angles 0 to 120 and the Medium arc over angles 120 to 360, with the claimed
colors, but both radius bands run from 20 to 40 because the component calls
the layout with maxLevels + 1 = 2 as band divisor. -/
theorem c1_scenario :
    (allArcs 80 80 threeIssuesTree).map (fun a => pathAngles a.path)
      = [some (0, 120), some (120, 360)]
    ∧ (allArcs 80 80 threeIssuesTree).map (fun a => pathInnerRadius a.path)
      = [some 20, some 20]
    ∧ (allArcs 80 80 threeIssuesTree).map (fun a => pathOuterRadius a.path)
      = [some 40, some 40]
    ∧ (allArcs 80 80 threeIssuesTree).map ArcData.color = ["#e11d48", "#f59e0b"]
    ∧ (allArcs 80 80 threeIssuesTree).map (fun a => a.data.name) = ["High", "Medium"] := by
  refine ⟨?_, ?_, ?_, ?_, ?_⟩ <;>
    (norm_num [allArcs, createArcs, walkChildren, arcFor, totalValueOf, maxLevelsOf,
      totalValueOf.grandSum, sumWeights, sumWeightsGo, jsOr1, jsOrZero, truthyNum,
      threeIssuesTree, highNode, mediumNode, SunburstData.value, SunburstData.color,
      SunburstData.children, SunburstData.name, segPath, describeArc, polarToCartesian,
      pathAngles, pathInnerRadius, pathOuterRadius, innerRadiusOfLevel,
      outerRadiusOfLevel, jsOrColor]) <;>
    try decide

/-- Claim C2 counterexample: a child of value -1 is claimed to receive a
zero-width span and emit no arc, but the layout emits one arc for it
spanning the full angle range from 0 to 360. -/
theorem c2_counterexample :
    (allArcs 80 80 negValueTree).map (fun a => a.data.name) = ["N"]
    ∧ (allArcs 80 80 negValueTree).map (fun a => pathAngles a.path) = [some (0, 360)]
    ∧ (360 : ℚ) - 0 ≠ 0 := by
  refine ⟨?_, ?_, by norm_num⟩ <;>
    norm_num [allArcs, createArcs, walkChildren, arcFor, totalValueOf, maxLevelsOf,
      totalValueOf.grandSum, sumWeights, sumWeightsGo, jsOr1, jsOrZero, truthyNum,
      negValueTree, SunburstData.value, SunburstData.color, SunburstData.children,
      SunburstData.name, segPath, describeArc, polarToCartesian, pathAngles,
      innerRadiusOfLevel, outerRadiusOfLevel, jsOrColor]

/-- Claim C2 amended: a node whose value is missing or NaN is treated as
weight 0: it is falsy, contributes zero width in any parent, emits no arc
of its own, and its children are still walked (all with degenerate ranges
when the range is zero-width); but a negative value is kept, not clamped. -/
theorem c2_nan_missing (radius cx cy : ℚ) (nm : String) (v : Option JSNum)
    (col : Option String) (ch : Option SList) (level : ℕ) (s e tv : ℚ) (ml : ℕ)
    (h : v = none ∨ v = some JSNum.nan) :
    jsOrZero v = 0
    ∧ truthyNum v = false
    ∧ arcFor radius cx cy (.mk nm v col ch) level s e ml = []
    ∧ createArcs radius cx cy (.mk nm v col ch) level s e tv ml
        = (match ch with
           | none => []
           | some cs =>
             walkChildren radius cx cy cs (level + 1) s
               (jsOr1 (sumWeights cs)) (e - s) tv ml)
    ∧ (∀ t r : ℚ, jsOrZero v / t * r = 0)
    ∧ (∀ cs : SList, ∀ p ∈ childSpans cs s s, p.2 = p.1) := by
  have hz : jsOrZero v = 0 := by rcases h with rfl | rfl <;> rfl
  have ht : truthyNum v = false := by rcases h with rfl | rfl <;> rfl
  have hA : arcFor radius cx cy (.mk nm v col ch) level s e ml = [] := by
    rw [arcFor, if_neg]
    rintro ⟨-, hc⟩
    rw [show (SunburstData.mk nm v col ch).value = v from rfl, ht] at hc
    exact Bool.false_ne_true hc
  refine ⟨hz, ht, hA, ?_, ?_, ?_⟩
  · rw [createArcs_mk, hA, List.nil_append]
  · intro t r
    rw [hz, zero_div, zero_mul]
  · intro cs p hp
    rw [childSpans, sub_self] at hp
    exact childSpansGo_zero_range _ cs s p hp

/-- Witness for C2 at a concrete NaN node with one child. -/
theorem c2_nan_missing_witness :
    (some JSNum.nan = none ∨ some JSNum.nan = some JSNum.nan)
    ∧ (jsOrZero (some JSNum.nan) = 0
       ∧ truthyNum (some JSNum.nan) = false
       ∧ arcFor 40 40 40 (.mk "NN" (some JSNum.nan) none
           (some (.cons highNode .nil))) 1 0 360 2 = []
       ∧ createArcs 40 40 40 (.mk "NN" (some JSNum.nan) none
           (some (.cons highNode .nil))) 1 0 360 1 2
           = walkChildren 40 40 40 (.cons highNode .nil) 2 0
               (jsOr1 (sumWeights (.cons highNode .nil))) (360 - 0) 1 2
       ∧ (∀ t r : ℚ, jsOrZero (some JSNum.nan) / t * r = 0)
       ∧ (∀ cs : SList, ∀ p ∈ childSpans cs 0 0, p.2 = p.1)) :=
  ⟨Or.inr rfl,
    c2_nan_missing 40 40 40 "NN" (some JSNum.nan) none
      (some (.cons highNode .nil)) 1 0 360 1 2 (Or.inr rfl)⟩

/-- Claim C3 counterexample: the single full-circle arc spans 360 degrees,
more than 180, yet the large-arc flag of its inner sweep is 0, not 1. -/
theorem c3_counterexample :
    (allArcs 80 80 fullCircleTree).map (fun a => pathAngles a.path) = [some (0, 360)]
    ∧ (allArcs 80 80 fullCircleTree).map (fun a => pathInnerFlag a.path) = [some 0]
    ∧ (180 : ℚ) < 360 - 0
    ∧ (0 : ℕ) ≠ 1 := by
  refine ⟨?_, ?_, by norm_num, by norm_num⟩ <;>
    norm_num [allArcs, createArcs, walkChildren, arcFor, totalValueOf, maxLevelsOf,
      totalValueOf.grandSum, sumWeights, sumWeightsGo, jsOr1, jsOrZero, truthyNum,
      fullCircleTree, SunburstData.value, SunburstData.color, SunburstData.children,
      segPath, describeArc, polarToCartesian, pathAngles, pathInnerFlag,
      innerRadiusOfLevel, outerRadiusOfLevel, jsOrColor]

/-- Claim C3 amended: with non-negative weights and an ordered angle range,
every emitted arc has an ordered angle pair whose outer sweep carries
large-arc flag 1 exactly when the span exceeds 180 degrees, while the inner
sweep, invoked with its angles swapped, always carries flag 0. -/
theorem c3_large_arc_flags (radius cx cy tv : ℚ) (ml : ℕ) (node : SunburstData)
    (level : ℕ) (s e : ℚ) (h1 : s ≤ e) (h2 : nonnegWeights node = true) :
    ∀ a ∈ createArcs radius cx cy node level s e tv ml,
      ∃ s2 e2 : ℚ, pathAngles a.path = some (s2, e2) ∧ s2 ≤ e2
        ∧ pathOuterFlag a.path = some (if 180 < e2 - s2 then 1 else 0)
        ∧ pathInnerFlag a.path = some 0 :=
  arcsFlags_node radius cx cy tv ml node level s e h1 h2

/-- Witness for C3 at the scenario tree. -/
theorem c3_large_arc_flags_witness :
    (0 : ℚ) ≤ 360
    ∧ nonnegWeights threeIssuesTree = true
    ∧ ∀ a ∈ createArcs 40 40 40 threeIssuesTree 0 0 360 1 2,
        ∃ s2 e2 : ℚ, pathAngles a.path = some (s2, e2) ∧ s2 ≤ e2
          ∧ pathOuterFlag a.path = some (if 180 < e2 - s2 then 1 else 0)
          ∧ pathInnerFlag a.path = some 0 := by
  have h2 : nonnegWeights threeIssuesTree = true := by
    norm_num [nonnegWeights, nonnegWeightsList, threeIssuesTree, highNode,
      mediumNode, SunburstData.value, jsOrZero]
  exact ⟨by norm_num, h2,
    c3_large_arc_flags 40 40 40 1 2 threeIssuesTree 0 0 360 (by norm_num) h2⟩

/-- Claim C5 counterexample: a depth-2 tree whose first child is a leaf is
assigned the heuristic maxLevels 1, and its level-2 arc has outer radius
60, above the chart radius 40. -/
theorem c5_counterexample :
    (allArcs 80 80 deepTree).map (fun a => pathOuterRadius a.path)
      = [some 40, some 40, some 60]
    ∧ min (80 : ℚ) 80 / 2 = 40
    ∧ ¬ ((60 : ℚ) ≤ 40) := by
  refine ⟨?_, by norm_num, by norm_num⟩
  norm_num [allArcs, createArcs, walkChildren, arcFor, totalValueOf, maxLevelsOf,
    totalValueOf.grandSum, sumWeights, sumWeightsGo, jsOr1, jsOrZero, truthyNum,
    deepTree, SunburstData.value, SunburstData.color, SunburstData.children,
    segPath, describeArc, polarToCartesian, pathOuterRadius,
    innerRadiusOfLevel, outerRadiusOfLevel, jsOrColor]

/-- Claim C5 amended: maxLevels is the heuristic of line 125 (2 when the
first child has a children array, else 1), not the true depth, and the band
divisor is maxLevels + 1; whenever the actual depth of the tree is at most
the heuristic value, no emitted arc has outer radius above the chart
radius. Deeper trees violate the bound, as the counterexample shows. -/
theorem c5_outer_bounded (w h : ℚ) (d : SunburstData)
    (h1 : sdepth d ≤ maxLevelsOf d) (h2 : 0 ≤ min w h) :
    ∀ a ∈ allArcs w h d, ∀ o : ℚ, pathOuterRadius a.path = some o
      → o ≤ min w h / 2 := by
  intro a ha o ho
  rw [allArcs] at ha
  obtain ⟨L, hL1, hL2, hL3, _, h5⟩ :=
    arcsRadii_node (min w h / 2) (w / 2) (h / 2) d 0 0 360
      (totalValueOf d) (maxLevelsOf d + 1) a ha
  rw [h5, Option.some_inj] at ho
  subst ho
  have hrad : 0 ≤ min w h / 2 := by linarith
  have hLml : L + 1 ≤ maxLevelsOf d + 1 := by omega
  rw [outerRadiusOfLevel]
  have hk : ((L : ℚ) + 1) / ((maxLevelsOf d + 1 : ℕ) : ℚ) ≤ 1 := by
    apply div_le_one_of_le₀
    · push_cast
      exact_mod_cast hLml
    · positivity
  calc ((L : ℚ) + 1) / ((maxLevelsOf d + 1 : ℕ) : ℚ) * (min w h / 2)
      ≤ 1 * (min w h / 2) := mul_le_mul_of_nonneg_right hk hrad
    _ = min w h / 2 := one_mul _

/-- Witness for C5 at the scenario tree, whose depth 1 matches the
heuristic value 1. -/
theorem c5_outer_bounded_witness :
    sdepth threeIssuesTree ≤ maxLevelsOf threeIssuesTree
    ∧ (0 : ℚ) ≤ min 80 80
    ∧ ∀ a ∈ allArcs 80 80 threeIssuesTree, ∀ o : ℚ,
        pathOuterRadius a.path = some o → o ≤ min (80 : ℚ) 80 / 2 :=
  ⟨by decide, by norm_num,
    c5_outer_bounded 80 80 threeIssuesTree (by decide) (by norm_num)⟩

/-- Claim C6 counterexample: the children of weights 1 and -1 sum to 0, yet
the first child receives the full-width range from 0 to 360 and both
children emit arcs, instead of every child receiving zero width. -/
theorem c6_counterexample :
    sumWeights zeroSumChildren = 0
    ∧ childSpans zeroSumChildren 0 360 = [(0, 360), (360, 0)]
    ∧ (allArcs 80 80 zeroSumTree).map (fun a => pathAngles a.path)
        = [some (0, 360), some (360, 0)]
    ∧ (360 : ℚ) - 0 ≠ 0 := by
  refine ⟨?_, ?_, ?_, by norm_num⟩ <;>
    norm_num [allArcs, createArcs, walkChildren, arcFor, totalValueOf, maxLevelsOf,
      totalValueOf.grandSum, sumWeights, sumWeightsGo, jsOr1, jsOrZero, truthyNum,
      zeroSumTree, zeroSumChildren, childSpans, childSpansGo, SunburstData.value,
      SunburstData.color, SunburstData.children, segPath, describeArc,
      polarToCartesian, pathAngles, innerRadiusOfLevel, outerRadiusOfLevel, jsOrColor]

/-- Claim C6 amended: when the children weights sum to 0 the divisor 1 is
substituted, and when additionally every child weight is non-negative
(hence zero), every child receives a zero-width range. -/
theorem c6_zero_total (cs : SList) (s e : ℚ) (h : sumWeights cs = 0)
    (h2 : nonnegWeightsList cs = true) :
    jsOr1 (sumWeights cs) = 1
    ∧ ∀ p ∈ childSpans cs s e, p.2 = p.1 := by
  refine ⟨?_, ?_⟩
  · rw [h, jsOr1, if_pos rfl]
  · intro p hp
    rw [childSpans] at hp
    exact childSpansGo_allzero _ _ cs s h2 h p hp

/-- Witness for C6 at a single zero-valued child. -/
theorem c6_zero_total_witness :
    sumWeights zeroChildOnly = 0
    ∧ nonnegWeightsList zeroChildOnly = true
    ∧ (jsOr1 (sumWeights zeroChildOnly) = 1
       ∧ ∀ p ∈ childSpans zeroChildOnly 0 360, p.2 = p.1) := by
  have h : sumWeights zeroChildOnly = 0 := by
    norm_num [zeroChildOnly, sumWeights, sumWeightsGo, jsOrZero, SunburstData.value]
  have h2 : nonnegWeightsList zeroChildOnly = true := by
    norm_num [zeroChildOnly, nonnegWeights, nonnegWeightsList, jsOrZero,
      SunburstData.value]
  exact ⟨h, h2, c6_zero_total zeroChildOnly 0 360 h h2⟩

/-- Claim C7 counterexample: a single child without a value is assigned the
zero-width range from 0 to 0, not the parent range from 0 to 360, and the
arcs inside its subtree are squeezed to zero width. -/
theorem c7_counterexample :
    childSpans (.cons noValueLeaf .nil) 0 360 = [(0, 0)]
    ∧ (allArcs 80 80 noValueParentTree).map (fun a => pathAngles a.path)
        = [some (0, 0)]
    ∧ (0 : ℚ) ≠ 360 := by
  refine ⟨?_, ?_, by norm_num⟩ <;>
    norm_num [allArcs, createArcs, walkChildren, arcFor, totalValueOf, maxLevelsOf,
      totalValueOf.grandSum, sumWeights, sumWeightsGo, jsOr1, jsOrZero, truthyNum,
      noValueParentTree, noValueLeaf, childSpans, childSpansGo, SunburstData.value,
      SunburstData.color, SunburstData.children, segPath, describeArc,
      polarToCartesian, pathAngles, innerRadiusOfLevel, outerRadiusOfLevel, jsOrColor]

/-- Claim C7 amended: a container with exactly one child whose weight under
the zero-default is non-zero hands that child the full parent range; a
single child of zero, missing, or NaN weight receives a zero-width range
as the counterexample shows. -/
theorem c7_single_child (radius cx cy : ℚ) (nm : String) (v : Option JSNum)
    (col : Option String) (c : SunburstData) (level : ℕ) (s e tv : ℚ) (ml : ℕ)
    (h : jsOrZero c.value ≠ 0) :
    childSpans (.cons c .nil) s e = [(s, e)]
    ∧ createArcs radius cx cy (.mk nm v col (some (.cons c .nil))) level s e tv ml
        = arcFor radius cx cy (.mk nm v col (some (.cons c .nil))) level s e ml
            ++ createArcs radius cx cy c (level + 1) s e tv ml := by
  have hsum : sumWeights (.cons c .nil) = jsOrZero c.value := by
    rw [sumWeights_cons, sumWeights, sumWeightsGo, add_zero]
  have hj : jsOr1 (sumWeights (.cons c .nil)) = jsOrZero c.value := by
    rw [hsum, jsOr1, if_neg h]
  have hfull : s + jsOrZero c.value / jsOr1 (sumWeights (SList.cons c SList.nil))
      * (e - s) = e := by
    rw [hj, div_self h, one_mul]
    ring
  constructor
  · rw [childSpans, childSpansGo, childSpansGo, hfull]
  · simp only [createArcs_mk]
    rw [walkChildren_cons, walkChildren_nil, List.append_nil, hfull]

/-- Witness for C7 at the High leaf as single child of a span from 0 to
360. -/
theorem c7_single_child_witness :
    jsOrZero highNode.value ≠ 0
    ∧ childSpans (.cons highNode .nil) 0 360 = [(0, 360)] := by
  have h : jsOrZero highNode.value ≠ 0 := by
    norm_num [highNode, jsOrZero, SunburstData.value]
  exact ⟨h, (c7_single_child 40 40 40 "P" none none highNode 0 0 360 1 2 h).1⟩

end Sunburst
